import Mathlib

/-!
Verification of the CSS-selector builder and the JSON helpers of
`src/05-objects-tasks.js`.

The selector part of the source is a
class `BaseSelector` (mutable fields `el_element`, `el_id`, `el_class`,
`el_attr`, `el_pseudoClass`, `el_pseudoElement` and a rank counter
`callOrder`), a combinator `BaseCombiner`, and a facade object
`cssSelectorBuilder`.  Mutating methods are embedded as state-passing
functions `BaseSelector → BaseSelector × Option SelError`: the first
component is the state of the JavaScript object after the call (JavaScript
throws interrupt the method, so on an error the state holds exactly the
writes performed before the throw), the second is the thrown error, if any.
-/

/-- The two error kinds thrown by the source: `throwOrder` (selector parts
out of the allowed sequence) and `throwUnique` (element, id or
pseudo-element occurring twice). -/
inductive SelError where
  | orderError
  | uniquenessError
deriving DecidableEq

/-- The message of `BaseSelector.throwOrder` in the source. -/
def orderMessage : String :=
  "Selector parts should be arranged in the following order: element, id, class, attribute, pseudo-class, pseudo-element"

/-- The message of `BaseSelector.throwUnique` in the source. -/
def uniqueMessage : String :=
  "Element, id and pseudo-element should not occur more then one time inside the selector"

/-- The fields of the `BaseSelector` class.  `callOrder` is `undefined`
until the first category-adding call, embedded as `Option Nat` with
`none` for `undefined` (in JavaScript `undefined > n` is `false`). -/
structure BaseSelector where
  el_element : String
  el_id : String
  el_class : List String
  el_attr : List String
  el_pseudoClass : List String
  el_pseudoElement : String
  callOrder : Option Nat
deriving DecidableEq

/-- The field state produced by the first lines of the constructor, before
any seeding call. -/
def emptySelector : BaseSelector :=
  { el_element := ""
    el_id := ""
    el_class := []
    el_attr := []
    el_pseudoClass := []
    el_pseudoElement := ""
    callOrder := none }

/-- `checkOrder(order)`: throws when `this.callOrder > order` (false when
`callOrder` is still `undefined`), otherwise assigns `callOrder = order`. -/
def BaseSelector.checkOrder (order : Nat) (s : BaseSelector) :
    BaseSelector × Option SelError :=
  match s.callOrder with
  | some c =>
      if c > order then (s, some SelError.orderError)
      else ({ s with callOrder := some order }, none)
  | none => ({ s with callOrder := some order }, none)

/-- Sequencing of two mutating calls: the second runs only when the first
did not throw. -/
def seqSel (r : BaseSelector × Option SelError)
    (f : BaseSelector → BaseSelector × Option SelError) :
    BaseSelector × Option SelError :=
  match r with
  | (s, none) => f s
  | (s, some e) => (s, some e)

/-- `element(value)`: unique (guarded by `el_element.length`), rank 1. -/
def BaseSelector.element (value : String) (s : BaseSelector) :
    BaseSelector × Option SelError :=
  if 0 < s.el_element.length then (s, some SelError.uniquenessError)
  else
    match s.checkOrder 1 with
    | (s1, some e) => (s1, some e)
    | (s1, none) => ({ s1 with el_element := value }, none)

/-- `id(value)`: unique (guarded by `el_id.length`), rank 2. -/
def BaseSelector.id (value : String) (s : BaseSelector) :
    BaseSelector × Option SelError :=
  if 0 < s.el_id.length then (s, some SelError.uniquenessError)
  else
    match s.checkOrder 2 with
    | (s1, some e) => (s1, some e)
    | (s1, none) => ({ s1 with el_id := value }, none)

/-- `class(value)` of the source (`class` is a Lean keyword): repeatable,
rank 3, appends to `el_class`. -/
def BaseSelector.addClass (value : String) (s : BaseSelector) :
    BaseSelector × Option SelError :=
  match s.checkOrder 3 with
  | (s1, some e) => (s1, some e)
  | (s1, none) => ({ s1 with el_class := s1.el_class ++ [value] }, none)

/-- `attr(value)`: repeatable, rank 4, appends to `el_attr`. -/
def BaseSelector.attr (value : String) (s : BaseSelector) :
    BaseSelector × Option SelError :=
  match s.checkOrder 4 with
  | (s1, some e) => (s1, some e)
  | (s1, none) => ({ s1 with el_attr := s1.el_attr ++ [value] }, none)

/-- `pseudoClass(value)`: repeatable, rank 5, appends to `el_pseudoClass`. -/
def BaseSelector.pseudoClass (value : String) (s : BaseSelector) :
    BaseSelector × Option SelError :=
  match s.checkOrder 5 with
  | (s1, some e) => (s1, some e)
  | (s1, none) => ({ s1 with el_pseudoClass := s1.el_pseudoClass ++ [value] }, none)

/-- `pseudoElement(value)`: unique (guarded by `el_pseudoElement.length`),
rank 6. -/
def BaseSelector.pseudoElement (value : String) (s : BaseSelector) :
    BaseSelector × Option SelError :=
  if 0 < s.el_pseudoElement.length then (s, some SelError.uniquenessError)
  else
    match s.checkOrder 6 with
    | (s1, some e) => (s1, some e)
    | (s1, none) => ({ s1 with el_pseudoElement := value }, none)

/-- The `BaseSelector` constructor: initialises every field to its empty
value and then calls the corresponding method for each argument of nonzero
length, in the fixed order element, id, class, attr, pseudoClass,
pseudoElement (a throw inside the constructor aborts construction). -/
def BaseSelector.construct
    (element id className attr pseudoClass pseudoElement : String) :
    BaseSelector × Option SelError :=
  let r0 : BaseSelector × Option SelError := (emptySelector, none)
  let r1 := if 0 < element.length then seqSel r0 (BaseSelector.element element) else r0
  let r2 := if 0 < id.length then seqSel r1 (BaseSelector.id id) else r1
  let r3 := if 0 < className.length then seqSel r2 (BaseSelector.addClass className) else r2
  let r4 := if 0 < attr.length then seqSel r3 (BaseSelector.attr attr) else r3
  let r5 := if 0 < pseudoClass.length then seqSel r4 (BaseSelector.pseudoClass pseudoClass) else r4
  if 0 < pseudoElement.length then seqSel r5 (BaseSelector.pseudoElement pseudoElement) else r5

/-- JavaScript `Array.prototype.join(sep)`. -/
def joinSep (sep : String) : List String → String
  | [] => ""
  | [x] => x
  | x :: y :: rest => x ++ sep ++ joinSep sep (y :: rest)

/-- `printElement()`: the element name, bare. -/
def BaseSelector.printElement (s : BaseSelector) : String :=
  s.el_element

/-- `printId()`: the id prefixed with a hash, or empty. -/
def BaseSelector.printId (s : BaseSelector) : String :=
  if 0 < s.el_id.length then "#" ++ s.el_id else ""

/-- `printClass()`: a dot followed by the classes joined with dots, or
empty. -/
def BaseSelector.printClass (s : BaseSelector) : String :=
  if 0 < s.el_class.length then "." ++ joinSep "." s.el_class else ""

/-- `printAttr()`: each attribute wrapped in square brackets, joined with
the empty separator. -/
def BaseSelector.printAttr (s : BaseSelector) : String :=
  joinSep "" (s.el_attr.map (fun el => "[" ++ el ++ "]"))

/-- `printPseudoClass()`: a colon followed by the pseudo-classes joined
with colons, or empty. -/
def BaseSelector.printPseudoClass (s : BaseSelector) : String :=
  if 0 < s.el_pseudoClass.length then ":" ++ joinSep ":" s.el_pseudoClass else ""

/-- `printPseudoElement()`: the pseudo-element prefixed with a double
colon, or empty. -/
def BaseSelector.printPseudoElement (s : BaseSelector) : String :=
  if 0 < s.el_pseudoElement.length then "::" ++ s.el_pseudoElement else ""

/-- `stringify()` of `BaseSelector`: the six print results concatenated. -/
def BaseSelector.stringify (s : BaseSelector) : String :=
  s.printElement ++ s.printId ++ s.printClass
    ++ s.printAttr ++ s.printPseudoClass ++ s.printPseudoElement

/-- The `stringify` method as a state transformer: the body only reads
fields, so the embedded method returns the rendered string and the
unchanged object. -/
def BaseSelector.stringifyM (s : BaseSelector) : String × BaseSelector :=
  (s.printElement ++ s.printId ++ s.printClass
    ++ s.printAttr ++ s.printPseudoClass ++ s.printPseudoElement, s)

/-- A renderable node: either a `BaseSelector` or a `BaseCombiner`
(`selector1`, `combiner` token, `selector2`). -/
inductive CssNode where
  | selector (s : BaseSelector)
  | baseCombiner (selector1 : CssNode) (combiner : String) (selector2 : CssNode)

/-- `stringify()` of a node: a `BaseCombiner` renders its two sides joined
by a space, the combiner token, and a space. -/
def CssNode.stringify : CssNode → String
  | .selector s => s.stringify
  | .baseCombiner s1 c s2 => s1.stringify ++ " " ++ c ++ " " ++ s2.stringify

/-- Facade `cssSelectorBuilder.element`: a fresh `BaseSelector` seeded with
only the element name. -/
def cssSelectorBuilder.element (value : String) : BaseSelector × Option SelError :=
  BaseSelector.construct value "" "" "" "" ""

/-- Facade `cssSelectorBuilder.id`. -/
def cssSelectorBuilder.id (value : String) : BaseSelector × Option SelError :=
  BaseSelector.construct "" value "" "" "" ""

/-- Facade `cssSelectorBuilder.class`. -/
def cssSelectorBuilder.addClass (value : String) : BaseSelector × Option SelError :=
  BaseSelector.construct "" "" value "" "" ""

/-- Facade `cssSelectorBuilder.attr`. -/
def cssSelectorBuilder.attr (value : String) : BaseSelector × Option SelError :=
  BaseSelector.construct "" "" "" value "" ""

/-- Facade `cssSelectorBuilder.pseudoClass`. -/
def cssSelectorBuilder.pseudoClass (value : String) : BaseSelector × Option SelError :=
  BaseSelector.construct "" "" "" "" value ""

/-- Facade `cssSelectorBuilder.pseudoElement`. -/
def cssSelectorBuilder.pseudoElement (value : String) : BaseSelector × Option SelError :=
  BaseSelector.construct "" "" "" "" "" value

/-- Facade `cssSelectorBuilder.combine`: wraps the two nodes in a fresh
`BaseCombiner`. -/
def cssSelectorBuilder.combine (selector1 : CssNode) (combiner : String)
    (selector2 : CssNode) : CssNode :=
  CssNode.baseCombiner selector1 combiner selector2

/-- One category-adding call of a chained call sequence. -/
inductive SelCall where
  | element (v : String)
  | id (v : String)
  | addClass (v : String)
  | attr (v : String)
  | pseudoClass (v : String)
  | pseudoElement (v : String)
deriving DecidableEq

/-- Dispatch of one call to the corresponding method. -/
def applyCall : SelCall → BaseSelector → BaseSelector × Option SelError
  | .element v, s => s.element v
  | .id v, s => s.id v
  | .addClass v, s => s.addClass v
  | .attr v, s => s.attr v
  | .pseudoClass v, s => s.pseudoClass v
  | .pseudoElement v, s => s.pseudoElement v

/-- A chained call sequence: each call runs on the state returned by the
previous one; a throw aborts the rest of the chain. -/
def runCalls : List SelCall → BaseSelector × Option SelError →
    BaseSelector × Option SelError
  | [], r => r
  | c :: cs, r => runCalls cs (seqSel r (applyCall c))

/-- The fixed rank of each category: element 1, id 2, class 3, attribute 4,
pseudo-class 5, pseudo-element 6. -/
def rank : SelCall → Nat
  | .element _ => 1
  | .id _ => 2
  | .addClass _ => 3
  | .attr _ => 4
  | .pseudoClass _ => 5
  | .pseudoElement _ => 6

/-- The highest rank already reached: the stored `callOrder`, read as 0
while still `undefined`. -/
def counterVal (s : BaseSelector) : Nat :=
  (s.callOrder).getD 0

/-- Whether the uniqueness guard of the call fires on the state: true
exactly when the call's exclusive field already has nonzero length. -/
def uniqueGuard : SelCall → BaseSelector → Bool
  | .element _, s => 0 < s.el_element.length
  | .id _, s => 0 < s.el_id.length
  | .pseudoElement _, s => 0 < s.el_pseudoElement.length
  | _, _ => false

/-- Concatenation of a list of strings. -/
def concatAll : List String → String
  | [] => ""
  | s :: rest => s ++ concatAll rest

/-- Rendering transcribed from the specification text: element name bare,
id prefixed with a hash, each class prefixed with a dot, each attribute
wrapped in square brackets, each pseudo-class prefixed with a colon, the
pseudo-element prefixed with a double colon, concatenated in this fixed
order with the repeatable categories in insertion order. -/
def specRender (s : BaseSelector) : String :=
  s.el_element
    ++ (if 0 < s.el_id.length then "#" ++ s.el_id else "")
    ++ concatAll (s.el_class.map (fun c => "." ++ c))
    ++ concatAll (s.el_attr.map (fun a => "[" ++ a ++ "]"))
    ++ concatAll (s.el_pseudoClass.map (fun c => ":" ++ c))
    ++ (if 0 < s.el_pseudoElement.length then "::" ++ s.el_pseudoElement else "")

/-!
## The JSON helpers

`getJSON` and `fromJSON` in the source delegate to the platform builtins
`JSON.stringify`, `JSON.parse`, `Object.create` and `Object.assign`, which
are not part of the repository.  Those builtins are modelled below from the
specification (a serializer and a parser for the standard data-interchange
text format over values made of primitives, arrays and plain objects).
The model restricts the codec to integer numbers, escapes only the quote
and the backslash in strings, and uses no insignificant whitespace; these
are exactly the texts the serializer emits, so the round-trip behaviour of
the standard codec on plain data is represented faithfully.
-/

/-- A value of the data-interchange format: a primitive, an array, or a
plain object given as its ordered field list. -/
inductive JVal where
  | null
  | bool (b : Bool)
  | num (n : Int)
  | str (s : String)
  | arr (items : List JVal)
  | obj (fields : List (String × JVal))

def escChars : List Char → List Char
  | [] => []
  | c :: rest =>
    if c = '"' then '\\' :: '"' :: escChars rest
    else if c = '\\' then '\\' :: '\\' :: escChars rest
    else c :: escChars rest

def toDigitsAux : Nat → Nat → List Char
  | 0, _ => []
  | fuel + 1, n =>
    if n < 10 then [Nat.digitChar n]
    else toDigitsAux fuel (n / 10) ++ [Nat.digitChar (n % 10)]

def toDigits (n : Nat) : List Char := toDigitsAux (n + 1) n

def serInt (n : Int) : List Char :=
  if n < 0 then '-' :: toDigits n.natAbs else toDigits n.toNat

mutual
def serChars : JVal → List Char
  | JVal.null => ['n', 'u', 'l', 'l']
  | JVal.bool true => ['t', 'r', 'u', 'e']
  | JVal.bool false => ['f', 'a', 'l', 's', 'e']
  | JVal.num n => serInt n
  | JVal.str s => '"' :: escChars s.data ++ ['"']
  | JVal.arr items => '[' :: serItems items ++ [']']
  | JVal.obj kvs => '\x7b' :: serKvs kvs ++ ['\x7d']
def serItems : List JVal → List Char
  | [] => []
  | [v] => serChars v
  | v :: w :: rest => serChars v ++ ',' :: serItems (w :: rest)
def serKvs : List (String × JVal) → List Char
  | [] => []
  | [(k, v)] => '"' :: escChars k.data ++ '"' :: ':' :: serChars v
  | (k, v) :: kv :: rest =>
      ('"' :: escChars k.data ++ '"' :: ':' :: serChars v) ++ ',' :: serKvs (kv :: rest)
end

def digitVal (c : Char) : Nat := c.toNat - 48

def parseDigits : List Char → Nat → Nat × List Char
  | [], acc => (acc, [])
  | c :: rest, acc =>
    if c.isDigit then parseDigits rest (acc * 10 + digitVal c) else (acc, c :: rest)

def parsePosNum : List Char → Option (Nat × List Char)
  | [] => none
  | c :: rest => if c.isDigit then some (parseDigits (c :: rest) 0) else none

def parseNum (l : List Char) : Option (Int × List Char) :=
  if l.head? = some '-' then
    (parsePosNum l.tail).map (fun p => (-(p.1 : Int), p.2))
  else
    (parsePosNum l).map (fun p => ((p.1 : Int), p.2))

def unescChar (e : Char) : Char := e

def parseStrBody : List Char → Option (List Char × List Char)
  | [] => none
  | [c] => if c = '"' then some ([], []) else none
  | c :: e :: rest =>
    if c = '"' then some ([], e :: rest)
    else if c = '\\' then (parseStrBody rest).map (fun p => (unescChar e :: p.1, p.2))
    else (parseStrBody (e :: rest)).map (fun p => (c :: p.1, p.2))

def expectChars : List Char → List Char → Option (List Char)
  | [], l => some l
  | c :: cs, d :: l => if d = c then expectChars cs l else none
  | _ :: _, [] => none

mutual
def parseVal : Nat → List Char → Option (JVal × List Char)
  | 0, _ => none
  | fuel + 1, l =>
    match l with
    | [] => none
    | c :: rest =>
      if c = 'n' then (expectChars ['u', 'l', 'l'] rest).map (fun r => (JVal.null, r))
      else if c = 't' then (expectChars ['r', 'u', 'e'] rest).map (fun r => (JVal.bool true, r))
      else if c = 'f' then (expectChars ['a', 'l', 's', 'e'] rest).map (fun r => (JVal.bool false, r))
      else if c = '"' then (parseStrBody rest).map (fun p => (JVal.str (String.mk p.1), p.2))
      else if c = '[' then (parseItems fuel rest).map (fun p => (JVal.arr p.1, p.2))
      else if c = '\x7b' then (parseKvs fuel rest).map (fun p => (JVal.obj p.1, p.2))
      else (parseNum (c :: rest)).map (fun p => (JVal.num p.1, p.2))
def parseItems : Nat → List Char → Option (List JVal × List Char)
  | 0, _ => none
  | fuel + 1, l =>
    if l.head? = some ']' then some ([], l.tail)
    else
      match parseVal fuel l with
      | none => none
      | some (v, r) =>
        match r with
        | ',' :: r2 => (parseItems fuel r2).map (fun p => (v :: p.1, p.2))
        | ']' :: r2 => some ([v], r2)
        | _ => none
def parseKvs : Nat → List Char → Option (List (String × JVal) × List Char)
  | 0, _ => none
  | fuel + 1, l =>
    match l with
    | '\x7d' :: rest => some ([], rest)
    | '"' :: rest =>
      match parseStrBody rest with
      | none => none
      | some (kcs, r1) =>
        match r1 with
        | ':' :: r2 =>
          match parseVal fuel r2 with
          | none => none
          | some (v, r3) =>
            match r3 with
            | ',' :: r4 => (parseKvs fuel r4).map (fun p => ((String.mk kcs, v) :: p.1, p.2))
            | '\x7d' :: r4 => some ([(String.mk kcs, v)], r4)
            | _ => none
        | _ => none
    | _ => none
end

/-- Modelled from the spec: `JSON.stringify`, the standard serialize-to-text
builtin used by `getJSON`, which is not part of the repository source. -/
def jsonStringify (v : JVal) : String := String.mk (serChars v)

/-- Modelled from the spec: `JSON.parse`, the standard parse-from-text
builtin used by `fromJSON`, not part of the repository source; `none` is a
parse error (a thrown exception in the source), and the whole text must be
consumed. -/
def jsonParse (s : String) : Option JVal :=
  match parseVal (s.data.length + 1) s.data with
  | some (v, []) => some v
  | _ => none

/-- A suffix behind a serialized number must not begin with a digit, so
that the number parse stops at the right place; inside the format the
suffix begins with a comma or a closing bracket, or is empty. -/
def restOK (l : List Char) : Prop := ∀ c, l.head? = some c → c.isDigit = false

/-- Modelled from the spec: an object created by `Object.create(proto)` —
a fresh object whose prototype is `proto` (kept opaque, of an arbitrary
type `P`) and whose own fields are the assigned key/value pairs. -/
structure JsObject (P : Type) where
  proto : P
  fields : List (String × JVal)

/-- Modelled from the spec: the key/value pairs `Object.assign` copies from
a parsed value onto the fresh object; parsing a non-object yields no
key/value pairs. -/
def ownFields : JVal → List (String × JVal)
  | JVal.obj kvs => kvs
  | _ => []

/-- `getJSON(obj)` of the source: returns the JSON representation of the
specified object, by delegating to the standard serializer. -/
def getJSON (v : JVal) : String := jsonStringify v

/-- `fromJSON(proto, json)` of the source: parses the text, creates a fresh
object with prototype `proto` and copies the parsed key/value pairs onto
it. -/
def fromJSON {P : Type} (proto : P) (json : String) : Option (JsObject P) :=
  (jsonParse json).map (fun data => { proto := proto, fields := ownFields data })

/-- Serializing a live object: `JSON.stringify` serializes the object's own
enumerable fields (the prototype is not part of the serialized data). -/
def JsObject.getJSON {P : Type} (o : JsObject P) : String := jsonStringify (JVal.obj o.fields)

/-- The possible first characters of a serialized value: a keyword letter,
a quote, an opening bracket, a minus sign or a digit. -/
def goodHead (c : Char) : Prop :=
  c = 'n' ∨ c = 't' ∨ c = 'f' ∨ c = '"' ∨ c = '[' ∨ c = '\x7b' ∨ c = '-' ∨ c.isDigit = true

/-! ## Helper lemmas about joining -/

theorem joinSep_empty_sep : ∀ l : List String, joinSep "" l = concatAll l
  | [] => rfl
  | [x] => by simp [joinSep, concatAll]
  | x :: y :: t => by
    simp only [joinSep, concatAll, joinSep_empty_sep (y :: t)]
    simp

theorem sep_joinSep (sep : String) :
    ∀ (x : String) (l : List String),
      sep ++ joinSep sep (x :: l) = concatAll ((x :: l).map (fun s => sep ++ s))
  | x, [] => by simp [joinSep, concatAll]
  | x, y :: t => by
    rw [List.map_cons,
      show concatAll ((sep ++ x) :: ((y :: t).map fun s => sep ++ s))
        = (sep ++ x) ++ concatAll ((y :: t).map fun s => sep ++ s) from rfl,
      ← sep_joinSep sep y t,
      show joinSep sep (x :: y :: t) = x ++ sep ++ joinSep sep (y :: t) from rfl]
    simp [String.append_assoc]

theorem printClass_eq (s : BaseSelector) :
    s.printClass = concatAll (s.el_class.map (fun c => "." ++ c)) := by
  unfold BaseSelector.printClass
  cases h : s.el_class with
  | nil => simp [concatAll]
  | cons x t => rw [if_pos (by simp), sep_joinSep]

theorem printPseudoClass_eq (s : BaseSelector) :
    s.printPseudoClass = concatAll (s.el_pseudoClass.map (fun c => ":" ++ c)) := by
  unfold BaseSelector.printPseudoClass
  cases h : s.el_pseudoClass with
  | nil => simp [concatAll]
  | cons x t => rw [if_pos (by simp), sep_joinSep]

theorem printAttr_eq (s : BaseSelector) :
    s.printAttr = concatAll (s.el_attr.map (fun a => "[" ++ a ++ "]")) := by
  unfold BaseSelector.printAttr
  rw [joinSep_empty_sep]

/-! ## Claim theorems for the selector builder -/

/-- C1: for every selector (in particular every selector built by a valid
call sequence), `stringify` returns the concatenation, in the fixed
syntactic order, of the element name bare, the id prefixed with a hash,
each class prefixed with a dot, each attribute wrapped in square brackets,
each pseudo-class prefixed with a colon and the pseudo-element prefixed
with a double colon, repeatable categories in insertion order; and the
example chain renders as in the specification, without an error. -/
theorem selector_stringify_fixed_order :
    (∀ s : BaseSelector, s.stringify = specRender s)
    ∧ (runCalls [SelCall.id "x", SelCall.addClass "b1", SelCall.addClass "b2",
          SelCall.attr "href$=\".png\"", SelCall.pseudoClass "focus"]
        (cssSelectorBuilder.element "a")).2 = none
    ∧ (runCalls [SelCall.id "x", SelCall.addClass "b1", SelCall.addClass "b2",
          SelCall.attr "href$=\".png\"", SelCall.pseudoClass "focus"]
        (cssSelectorBuilder.element "a")).1.stringify
        = "a#x.b1.b2[href$=\".png\"]:focus" := by
  refine ⟨fun s => ?_, by decide, by decide⟩
  unfold BaseSelector.stringify specRender
  rw [printClass_eq, printAttr_eq, printPseudoClass_eq]
  rfl

/-- C2 (counterexample): the claim "a category-adding call raises
`OrderError` if and only if the category rank is strictly below the rank
counter" is false as stated: on the selector built by
`element('a').id('b')`, the call `element('c')` has rank 1 below the
counter 2, yet it raises `UniquenessError`, not `OrderError`, because the
uniqueness guard runs first. -/
theorem order_claim_counterexample :
    ¬ (∀ (s : BaseSelector) (c : SelCall),
        ((applyCall c s).2 = some SelError.orderError ↔ rank c < counterVal s)) := by
  intro h
  have h2 := (h (runCalls [SelCall.id "b"] (cssSelectorBuilder.element "a")).1
      (SelCall.element "c")).mpr (by decide)
  exact absurd h2 (by decide)

/-- C2 (amended): for every selector and every category-adding call whose
uniqueness guard does not fire, the call raises `OrderError` if and only if
the category's fixed rank is strictly less than the highest rank already
reached (`callOrder`, 0 while still unset); otherwise the call proceeds and
the rank counter is set to the category rank, so equal rank is permitted
for the repeatable categories. -/
theorem order_error_iff_rank_lt_counter (s : BaseSelector) (c : SelCall)
    (h : uniqueGuard c s = false) :
    ((applyCall c s).2 = some SelError.orderError ↔ rank c < counterVal s)
    ∧ ((applyCall c s).2 = none → (applyCall c s).1.callOrder = some (rank c)) := by
  cases c <;>
    simp only [applyCall, uniqueGuard, rank, counterVal,
      BaseSelector.element, BaseSelector.id, BaseSelector.addClass,
      BaseSelector.attr, BaseSelector.pseudoClass, BaseSelector.pseudoElement,
      BaseSelector.checkOrder, decide_eq_false_iff_not] at h ⊢ <;>
    rcases hco : s.callOrder with _ | c0 <;>
    simp_all <;> split_ifs <;> simp_all

/-- Witness for the amended C2, at the example of the claim: calling
`element('y')` after `id('x')` (rank 1, counter 2) raises `OrderError`. -/
theorem order_error_iff_witness :
    (((applyCall (SelCall.element "y") (cssSelectorBuilder.id "x").1).2
        = some SelError.orderError)
      ↔ rank (SelCall.element "y") < counterVal (cssSelectorBuilder.id "x").1)
    ∧ ((applyCall (SelCall.element "y") (cssSelectorBuilder.id "x").1).2 = none
        → (applyCall (SelCall.element "y") (cssSelectorBuilder.id "x").1).1.callOrder
            = some (rank (SelCall.element "y"))) :=
  order_error_iff_rank_lt_counter (cssSelectorBuilder.id "x").1 (SelCall.element "y") (by decide)

/-- C3: a second attempt to set element, id or pseudo-element — one made
while the field already holds a nonempty value — raises `UniquenessError`,
for every selector state and argument, hence in particular also when an
order violation applies to the same call: uniqueness is checked first. -/
theorem uniqueness_checked_first (s : BaseSelector) (v : String) :
    (0 < s.el_element.length → (s.element v).2 = some SelError.uniquenessError)
    ∧ (0 < s.el_id.length → (s.id v).2 = some SelError.uniquenessError)
    ∧ (0 < s.el_pseudoElement.length → (s.pseudoElement v).2 = some SelError.uniquenessError) := by
  refine ⟨fun h => ?_, fun h => ?_, fun h => ?_⟩ <;>
    simp [BaseSelector.element, BaseSelector.id, BaseSelector.pseudoElement, h]

/-- Witness for C3: `id('x')` then `id('y')` raises `UniquenessError`; and
on `element('a').id('b')` a second `element` call raises
`UniquenessError` even though an order violation also applies. -/
theorem uniqueness_checked_first_witness :
    ((BaseSelector.id "y" (cssSelectorBuilder.id "x").1).2 = some SelError.uniquenessError)
    ∧ ((BaseSelector.element "z"
          (runCalls [SelCall.id "b"] (cssSelectorBuilder.element "a")).1).2
        = some SelError.uniquenessError) :=
  ⟨(uniqueness_checked_first (cssSelectorBuilder.id "x").1 "y").2.1 (by decide),
   (uniqueness_checked_first (runCalls [SelCall.id "b"] (cssSelectorBuilder.element "a")).1 "z").1
      (by decide)⟩

/-- C4: each facade call builds a fresh `BaseSelector` seeded with only
its one token (and, for a seed of nonzero length, the matching rank), never
throwing; selectors are plain values of this construction, so two facade
results share no state, while a chain threads one and the same state
through `runCalls`. -/
theorem facade_returns_fresh_seeded_selector (v : String) :
    (0 < v.length →
      cssSelectorBuilder.element v
          = ({ emptySelector with el_element := v, callOrder := some 1 }, none)
        ∧ cssSelectorBuilder.id v
          = ({ emptySelector with el_id := v, callOrder := some 2 }, none)
        ∧ cssSelectorBuilder.addClass v
          = ({ emptySelector with el_class := [v], callOrder := some 3 }, none)
        ∧ cssSelectorBuilder.attr v
          = ({ emptySelector with el_attr := [v], callOrder := some 4 }, none)
        ∧ cssSelectorBuilder.pseudoClass v
          = ({ emptySelector with el_pseudoClass := [v], callOrder := some 5 }, none)
        ∧ cssSelectorBuilder.pseudoElement v
          = ({ emptySelector with el_pseudoElement := v, callOrder := some 6 }, none))
    ∧ (v.length = 0 →
      cssSelectorBuilder.element v = (emptySelector, none)
        ∧ cssSelectorBuilder.id v = (emptySelector, none)
        ∧ cssSelectorBuilder.addClass v = (emptySelector, none)
        ∧ cssSelectorBuilder.attr v = (emptySelector, none)
        ∧ cssSelectorBuilder.pseudoClass v = (emptySelector, none)
        ∧ cssSelectorBuilder.pseudoElement v = (emptySelector, none)) := by
  constructor <;> intro h <;>
    refine ⟨?_, ?_, ?_, ?_, ?_, ?_⟩ <;>
    simp [cssSelectorBuilder.element, cssSelectorBuilder.id, cssSelectorBuilder.addClass,
      cssSelectorBuilder.attr, cssSelectorBuilder.pseudoClass, cssSelectorBuilder.pseudoElement,
      BaseSelector.construct, BaseSelector.element, BaseSelector.id, BaseSelector.addClass,
      BaseSelector.attr, BaseSelector.pseudoClass, BaseSelector.pseudoElement,
      BaseSelector.checkOrder, seqSel, emptySelector, h]

/-- Witness for C4, at a nonempty and at an empty seed. -/
theorem facade_returns_fresh_seeded_selector_witness :
    (cssSelectorBuilder.element "w"
        = ({ emptySelector with el_element := "w", callOrder := some 1 }, none)
      ∧ cssSelectorBuilder.id "w"
        = ({ emptySelector with el_id := "w", callOrder := some 2 }, none)
      ∧ cssSelectorBuilder.addClass "w"
        = ({ emptySelector with el_class := ["w"], callOrder := some 3 }, none)
      ∧ cssSelectorBuilder.attr "w"
        = ({ emptySelector with el_attr := ["w"], callOrder := some 4 }, none)
      ∧ cssSelectorBuilder.pseudoClass "w"
        = ({ emptySelector with el_pseudoClass := ["w"], callOrder := some 5 }, none)
      ∧ cssSelectorBuilder.pseudoElement "w"
        = ({ emptySelector with el_pseudoElement := "w", callOrder := some 6 }, none))
    ∧ (cssSelectorBuilder.element "" = (emptySelector, none)
      ∧ cssSelectorBuilder.id "" = (emptySelector, none)
      ∧ cssSelectorBuilder.addClass "" = (emptySelector, none)
      ∧ cssSelectorBuilder.attr "" = (emptySelector, none)
      ∧ cssSelectorBuilder.pseudoClass "" = (emptySelector, none)
      ∧ cssSelectorBuilder.pseudoElement "" = (emptySelector, none)) :=
  ⟨(facade_returns_fresh_seeded_selector "w").1 (by decide),
   (facade_returns_fresh_seeded_selector "").2 (by decide)⟩

/-- C5: `combine` yields a node rendering as the left node, a space, the
combinator token passed through verbatim, a space, and the right node; the
specification example renders accordingly. -/
theorem combine_renders_joined :
    (∀ (a : CssNode) (t : String) (b : CssNode),
      (cssSelectorBuilder.combine a t b).stringify
        = a.stringify ++ " " ++ t ++ " " ++ b.stringify)
    ∧ (cssSelectorBuilder.combine
        (CssNode.selector (runCalls [SelCall.id "main"] (cssSelectorBuilder.element "div")).1) "+"
        (CssNode.selector (runCalls [SelCall.id "data"] (cssSelectorBuilder.element "table")).1)).stringify
      = "div#main + table#data" :=
  ⟨fun a t b => rfl, by rfl⟩

/-- C6: `stringify` only reads the fields: the embedded method returns the
object unchanged, its result is the rendering of the stored fields, and a
repeated call with no intervening mutation returns the same string. -/
theorem stringify_pure_idempotent (s : BaseSelector) :
    s.stringifyM.2 = s ∧ s.stringifyM.1 = s.stringify
    ∧ (s.stringifyM.2).stringifyM.1 = s.stringifyM.1 :=
  ⟨rfl, rfl, rfl⟩

/-- C9: an empty string never counts as set for the exclusive categories:
`cssSelectorBuilder.element('')` yields a selector rendering `''` whose
rank counter was not advanced and on which a later `element` succeeds; and
after a successful `element('')`, `id('')` or `pseudoElement('')` on any
selector, a second call of the same category does not raise
`UniquenessError` (it succeeds). -/
theorem empty_string_not_set :
    ((cssSelectorBuilder.element "").1.stringify = ""
      ∧ (cssSelectorBuilder.element "").1.callOrder = none
      ∧ (BaseSelector.element "y" (cssSelectorBuilder.element "").1).2 = none)
    ∧ (∀ (s : BaseSelector) (v : String),
        ((s.element "").2 = none → ((s.element "").1.element v).2 = none)
        ∧ ((s.id "").2 = none → ((s.id "").1.id v).2 = none)
        ∧ ((s.pseudoElement "").2 = none → ((s.pseudoElement "").1.pseudoElement v).2 = none)) := by
  refine ⟨⟨by decide, by decide, by decide⟩, fun s v => ⟨fun h => ?_, fun h => ?_, fun h => ?_⟩⟩ <;>
  · rcases hco : s.callOrder with _ | c0 <;>
      simp only [BaseSelector.element, BaseSelector.id, BaseSelector.pseudoElement,
        BaseSelector.checkOrder, hco] at h ⊢ <;>
      (try split_ifs at h ⊢) <;>
      simp_all [BaseSelector.element, BaseSelector.id, BaseSelector.pseudoElement,
        BaseSelector.checkOrder]

/-- Witness for C9: on the fresh selector, each exclusive category set to
the empty string can be set again without error. -/
theorem empty_string_not_set_witness :
    ((emptySelector.element "").1.element "y").2 = none
    ∧ ((emptySelector.id "").1.id "y").2 = none
    ∧ ((emptySelector.pseudoElement "").1.pseudoElement "y").2 = none :=
  ⟨(empty_string_not_set.2 emptySelector "y").1 (by decide),
   (empty_string_not_set.2 emptySelector "y").2.1 (by decide),
   (empty_string_not_set.2 emptySelector "y").2.2 (by decide)⟩

/-- C10: whenever a mutator raises (either error), the selector state is
exactly the state before the call — both error checks run before any field
write — so it still renders the same string. -/
theorem mutator_error_leaves_state (s : BaseSelector) (c : SelCall)
    (h : (applyCall c s).2.isSome = true) :
    (applyCall c s).1 = s ∧ (applyCall c s).1.stringify = s.stringify := by
  have hs : (applyCall c s).1 = s := by
    cases c <;> rcases hco : s.callOrder with _ | c0 <;>
      simp only [applyCall, BaseSelector.element, BaseSelector.id, BaseSelector.addClass,
        BaseSelector.attr, BaseSelector.pseudoClass, BaseSelector.pseudoElement,
        BaseSelector.checkOrder, hco] at h ⊢ <;>
      (try split_ifs at h ⊢) <;> simp_all
  exact ⟨hs, by rw [hs]⟩

/-- Witness for C10: the failing `element('y')` after `id('x')` leaves the
selector unchanged. -/
theorem mutator_error_leaves_state_witness :
    (applyCall (SelCall.element "y") (cssSelectorBuilder.id "x").1).1
        = (cssSelectorBuilder.id "x").1
    ∧ (applyCall (SelCall.element "y") (cssSelectorBuilder.id "x").1).1.stringify
        = (cssSelectorBuilder.id "x").1.stringify :=
  mutator_error_leaves_state (cssSelectorBuilder.id "x").1 (SelCall.element "y") (by decide)

/-! ## Round trip of the modelled codec -/

theorem restOK_nil : restOK [] := by intro c h; simp at h

theorem restOK_cons {c : Char} (h : c.isDigit = false) (l : List Char) : restOK (c :: l) := by
  intro d hd
  simp at hd
  subst hd
  exact h

theorem digitChar_isDigit {n : Nat} (h : n < 10) :
    (Nat.digitChar n).isDigit = true ∧ digitVal (Nat.digitChar n) = n := by
  interval_cases n <;> exact ⟨by decide, by decide⟩

theorem digit_ne {c : Char} (h : c.isDigit = true) :
    c ≠ 'n' ∧ c ≠ 't' ∧ c ≠ 'f' ∧ c ≠ '"' ∧ c ≠ '[' ∧ c ≠ '\x7b'
      ∧ c ≠ '-' ∧ c ≠ ']' ∧ c ≠ ',' := by
  refine ⟨?_, ?_, ?_, ?_, ?_, ?_, ?_, ?_, ?_⟩ <;> · rintro rfl; exact absurd h (by decide)

theorem toDigitsAux_adequate : ∀ n fuel, n < fuel → toDigitsAux fuel n = toDigits n := by
  intro n
  induction n using Nat.strong_induction_on with
  | _ n IH =>
    intro fuel hf
    by_cases h10 : n < 10
    · cases fuel with
      | zero => omega
      | succ f => simp [toDigitsAux, toDigits, h10]
    · cases fuel with
      | zero => omega
      | succ f =>
        have hd : n / 10 < n := Nat.div_lt_self (by omega) (by omega)
        simp only [toDigitsAux, toDigits, if_neg h10]
        rw [IH (n / 10) hd f (by omega), IH (n / 10) hd n (by omega)]

theorem toDigits_lt {n : Nat} (h : n < 10) : toDigits n = [Nat.digitChar n] := by
  simp [toDigits, toDigitsAux, h]

theorem toDigits_ge {n : Nat} (h : ¬ n < 10) :
    toDigits n = toDigits (n / 10) ++ [Nat.digitChar (n % 10)] := by
  have hd : n / 10 < n := Nat.div_lt_self (by omega) (by omega)
  simp only [toDigits, toDigitsAux, if_neg h]
  rw [toDigitsAux_adequate (n / 10) n (by omega)]
  rfl

theorem toDigits_head : ∀ n : Nat, ∃ c cs, toDigits n = c :: cs ∧ c.isDigit = true := by
  intro n
  induction n using Nat.strong_induction_on with
  | _ n IH =>
    by_cases h10 : n < 10
    · exact ⟨Nat.digitChar n, [], toDigits_lt h10, (digitChar_isDigit h10).1⟩
    · obtain ⟨c, cs, hser, hc⟩ := IH (n / 10) (Nat.div_lt_self (by omega) (by omega))
      exact ⟨c, cs ++ [Nat.digitChar (n % 10)], by rw [toDigits_ge h10, hser]; rfl, hc⟩

theorem parseDigits_stop {l : List Char} (h : restOK l) (acc : Nat) :
    parseDigits l acc = (acc, l) := by
  cases l with
  | nil => rfl
  | cons c rest =>
    have := h c (by rfl)
    simp [parseDigits, this]

theorem parseDigits_toDigits : ∀ n acc l,
    parseDigits (toDigits n ++ l) acc
      = parseDigits l (acc * 10 ^ (toDigits n).length + n) := by
  intro n
  induction n using Nat.strong_induction_on with
  | _ n IH =>
    intro acc l
    by_cases h10 : n < 10
    · obtain ⟨hd1, hd2⟩ := digitChar_isDigit h10
      rw [toDigits_lt h10]
      simp [parseDigits, hd1, hd2]
    · have hd : n / 10 < n := Nat.div_lt_self (by omega) (by omega)
      have hmod : n % 10 < 10 := Nat.mod_lt n (by omega)
      have he := digitChar_isDigit hmod
      rw [toDigits_ge h10, List.append_assoc, IH (n / 10) hd acc _, List.singleton_append]
      simp only [parseDigits, he.1, he.2, if_true, List.length_append, List.length_singleton]
      congr 1
      rw [pow_succ, ← Nat.mul_assoc]
      omega

theorem parsePosNum_toDigits {l : List Char} (h : restOK l) (n : Nat) :
    parsePosNum (toDigits n ++ l) = some (n, l) := by
  obtain ⟨c, cs, hser, hc⟩ := toDigits_head n
  rw [hser, List.cons_append]
  simp only [parsePosNum, hc, if_pos]
  rw [← List.cons_append, ← hser, parseDigits_toDigits, parseDigits_stop h]
  simp

theorem parseNum_serInt {l : List Char} (h : restOK l) (n : Int) :
    parseNum (serInt n ++ l) = some (n, l) := by
  by_cases hn : n < 0
  · simp only [serInt, if_pos hn, List.cons_append, parseNum, List.head?, List.tail,
      if_true, parsePosNum_toDigits h, Option.map_some']
    have hab : -((n.natAbs : Int)) = n := by omega
    rw [hab]
  · obtain ⟨c, cs, hser, hc⟩ := toDigits_head n.toNat
    simp only [serInt, if_neg hn, hser, List.cons_append, parseNum, List.head?]
    rw [if_neg (by simp [(digit_ne hc).2.2.2.2.2.2.1])]
    rw [← List.cons_append, ← hser, parsePosNum_toDigits h, Option.map_some']
    have hab : ((n.toNat : Int)) = n := by omega
    rw [hab]

theorem parseStrBody_quote (l : List Char) : parseStrBody ('"' :: l) = some ([], l) := by
  cases l with
  | nil => rfl
  | cons x xs => rfl

theorem escChars_sound : ∀ (cs l : List Char),
    parseStrBody (escChars cs ++ '"' :: l) = some (cs, l) := by
  intro cs
  induction cs with
  | nil => intro l; rw [escChars, List.nil_append, parseStrBody_quote]
  | cons c rest IH =>
    intro l
    by_cases h1 : c = '"'
    · subst h1
      simp only [escChars, if_pos rfl, List.cons_append]
      simp only [parseStrBody, if_neg (show ¬('\\' = '"') by decide), if_pos rfl,
        eq_self_iff_true, if_true, List.append_eq]
      rw [IH]
      rfl
    · by_cases h2 : c = '\\'
      · subst h2
        simp only [escChars, if_neg (show ¬('\\' = '"') by decide), if_pos rfl,
          List.cons_append]
        simp only [parseStrBody, if_neg (show ¬('\\' = '"') by decide), if_pos rfl,
          eq_self_iff_true, if_true, List.append_eq]
        rw [IH]
        rfl
      · simp only [escChars, if_neg h1, if_neg h2, List.cons_append]
        rcases hl : escChars rest ++ '"' :: l with _ | ⟨d, ds⟩
        · exact absurd hl (by simp)
        · simp only [parseStrBody, if_neg h1, if_neg h2]
          rw [← hl, IH]
          rfl

theorem serChars_head : ∀ v : JVal, ∃ c cs, serChars v = c :: cs ∧ goodHead c := by
  intro v
  cases v with
  | null => exact ⟨'n', _, rfl, Or.inl rfl⟩
  | bool b =>
    cases b with
    | true => exact ⟨'t', _, rfl, Or.inr (Or.inl rfl)⟩
    | false => exact ⟨'f', _, rfl, Or.inr (Or.inr (Or.inl rfl))⟩
  | num n =>
    by_cases hn : n < 0
    · refine ⟨'-', toDigits n.natAbs, ?_, ?_⟩
      · simp [serChars, serInt, hn]
      · unfold goodHead; tauto
    · obtain ⟨c, cs, hser, hc⟩ := toDigits_head n.toNat
      refine ⟨c, cs, ?_, ?_⟩
      · simp [serChars, serInt, hn, hser]
      · unfold goodHead; tauto
  | str s => exact ⟨'"', _, rfl, by unfold goodHead; tauto⟩
  | arr items => exact ⟨'[', _, rfl, by unfold goodHead; tauto⟩
  | obj kvs => exact ⟨'\x7b', _, rfl, by unfold goodHead; tauto⟩

theorem goodHead_ne_rbrack {c : Char} (h : goodHead c) : c ≠ ']' := by
  rcases h with h | h | h | h | h | h | h | h <;> first
    | (subst h; decide)
    | (exact (digit_ne h).2.2.2.2.2.2.2.1)

theorem serChars_ne_nil (v : JVal) : serChars v ≠ [] := by
  obtain ⟨c, cs, hser, _⟩ := serChars_head v
  simp [hser]

theorem numHead_ne {c : Char} (h : c = '-' ∨ c.isDigit = true) :
    c ≠ 'n' ∧ c ≠ 't' ∧ c ≠ 'f' ∧ c ≠ '"' ∧ c ≠ '[' ∧ c ≠ '\x7b' := by
  rcases h with h | h
  · subst h; refine ⟨by decide, by decide, by decide, by decide, by decide, by decide⟩
  · have := digit_ne h
    exact ⟨this.1, this.2.1, this.2.2.1, this.2.2.2.1, this.2.2.2.2.1, this.2.2.2.2.2.1⟩

theorem serInt_head (n : Int) :
    ∃ c cs, serInt n = c :: cs ∧ (c = '-' ∨ c.isDigit = true) := by
  by_cases hn : n < 0
  · exact ⟨'-', toDigits n.natAbs, by simp [serInt, hn], Or.inl rfl⟩
  · obtain ⟨c, cs, hser, hc⟩ := toDigits_head n.toNat
    exact ⟨c, cs, by simp [serInt, hn, hser], Or.inr hc⟩

theorem parse_ser : ∀ fuel : Nat,
    (∀ (v : JVal) (l : List Char), (serChars v).length < fuel → restOK l →
        parseVal fuel (serChars v ++ l) = some (v, l))
    ∧ (∀ (items : List JVal) (l : List Char), (serItems items).length + 2 ≤ fuel →
        parseItems fuel (serItems items ++ ']' :: l) = some (items, l))
    ∧ (∀ (kvs : List (String × JVal)) (l : List Char), (serKvs kvs).length + 2 ≤ fuel →
        parseKvs fuel (serKvs kvs ++ '\x7d' :: l) = some (kvs, l)) := by
  intro fuel
  induction fuel using Nat.strong_induction_on with
  | _ fuel IH =>
    refine ⟨?_, ?_, ?_⟩
    · intro v l hlen hrest
      cases fuel with
      | zero => exact absurd hlen (Nat.not_lt_zero _)
      | succ f =>
        cases v with
        | null => rfl
        | bool b => cases b <;> rfl
        | str s =>
          show parseVal (f + 1)
              (('"' :: escChars s.data ++ ['"']) ++ l) = some (JVal.str s, l)
          simp only [List.cons_append, List.append_assoc, List.singleton_append, List.nil_append]
          rw [show parseVal (f + 1) ('"' :: (escChars s.data ++ '"' :: l))
              = (parseStrBody (escChars s.data ++ '"' :: l)).map
                  (fun p => (JVal.str (String.mk p.1), p.2)) from rfl,
            escChars_sound]
          rfl
        | num n =>
          obtain ⟨c, cs, hser, hc⟩ := serInt_head n
          have hne := numHead_ne hc
          show parseVal (f + 1) (serInt n ++ l) = some (JVal.num n, l)
          rw [hser, List.cons_append]
          simp only [parseVal]
          rw [if_neg hne.1, if_neg hne.2.1, if_neg hne.2.2.1, if_neg hne.2.2.2.1,
            if_neg hne.2.2.2.2.1, if_neg hne.2.2.2.2.2,
            ← List.cons_append, ← hser, parseNum_serInt hrest n]
          rfl
        | arr items =>
          have hlen2 : (serItems items).length + 2 ≤ f := by
            have : (serChars (JVal.arr items)).length = (serItems items).length + 2 := by
              show (('[' :: serItems items ++ [']']).length) = (serItems items).length + 2
              simp
            omega
          show parseVal (f + 1) (('[' :: serItems items ++ [']']) ++ l)
            = some (JVal.arr items, l)
          simp only [List.cons_append, List.append_assoc, List.singleton_append, List.nil_append]
          rw [show parseVal (f + 1) ('[' :: (serItems items ++ ']' :: l))
              = (parseItems f (serItems items ++ ']' :: l)).map
                  (fun p => (JVal.arr p.1, p.2)) from rfl,
            (IH f (Nat.lt_succ_self f)).2.1 items l hlen2]
          rfl
        | obj kvs =>
          have hlen2 : (serKvs kvs).length + 2 ≤ f := by
            have : (serChars (JVal.obj kvs)).length = (serKvs kvs).length + 2 := by
              show (('\x7b' :: serKvs kvs ++ ['\x7d']).length) = (serKvs kvs).length + 2
              simp
            omega
          show parseVal (f + 1) (('\x7b' :: serKvs kvs ++ ['\x7d']) ++ l)
            = some (JVal.obj kvs, l)
          simp only [List.cons_append, List.append_assoc, List.singleton_append, List.nil_append]
          rw [show parseVal (f + 1) ('\x7b' :: (serKvs kvs ++ '\x7d' :: l))
              = (parseKvs f (serKvs kvs ++ '\x7d' :: l)).map
                  (fun p => (JVal.obj p.1, p.2)) from rfl,
            (IH f (Nat.lt_succ_self f)).2.2 kvs l hlen2]
          rfl
    · intro items l hlen
      cases fuel with
      | zero => omega
      | succ f =>
        cases items with
        | nil => rfl
        | cons v vs =>
          obtain ⟨c, cs, hserv, hgood⟩ := serChars_head v
          have hlenv : 0 < (serChars v).length := by
            rw [hserv]; simp
          cases vs with
          | nil =>
            have hlen1 : (serChars v).length < f := by
              simp only [serItems] at hlen
              omega
            have hhead : ((serChars v ++ ']' :: l).head? = some ']') = False := by
              rw [hserv]
              simp [goodHead_ne_rbrack hgood]
            show parseItems (f + 1) (serChars v ++ ']' :: l) = some ([v], l)
            simp only [parseItems, hhead, if_false,
              (IH f (Nat.lt_succ_self f)).1 v (']' :: l) hlen1
                (restOK_cons (by decide) l)]
          | cons w ws =>
            have hlen1 : (serChars v).length < f := by
              simp only [serItems, List.length_append, List.length_cons] at hlen
              omega
            have hlen2 : (serItems (w :: ws)).length + 2 ≤ f := by
              simp only [serItems, List.length_append, List.length_cons] at hlen ⊢
              omega
            have hhead : ((serChars v ++ ',' :: (serItems (w :: ws) ++ ']' :: l)).head?
                = some ']') = False := by
              rw [hserv]
              simp [goodHead_ne_rbrack hgood]
            show parseItems (f + 1)
                ((serChars v ++ ',' :: serItems (w :: ws)) ++ ']' :: l) = some (v :: w :: ws, l)
            rw [List.append_assoc, List.cons_append]
            simp only [parseItems, hhead, if_false,
              (IH f (Nat.lt_succ_self f)).1 v (',' :: (serItems (w :: ws) ++ ']' :: l)) hlen1
                (restOK_cons (by decide) _),
              (IH f (Nat.lt_succ_self f)).2.1 (w :: ws) l hlen2]
            rfl
    · intro kvs l hlen
      cases fuel with
      | zero => omega
      | succ f =>
        cases kvs with
        | nil => rfl
        | cons kv kvs' =>
          obtain ⟨k, v⟩ := kv
          cases kvs' with
          | nil =>
            have hlen1 : (serChars v).length < f := by
              simp only [serKvs, List.length_append, List.length_cons] at hlen
              omega
            show parseKvs (f + 1)
                (('"' :: escChars k.data ++ '"' :: ':' :: serChars v) ++ '\x7d' :: l)
              = some ([(k, v)], l)
            simp only [List.cons_append, List.append_assoc]
            simp only [parseKvs, escChars_sound,
              (IH f (Nat.lt_succ_self f)).1 v ('\x7d' :: l) hlen1
                (restOK_cons (by decide) l)]
          | cons kv2 rest =>
            have hlen1 : (serChars v).length < f := by
              simp only [serKvs, List.length_append, List.length_cons] at hlen
              omega
            have hlen2 : (serKvs (kv2 :: rest)).length + 2 ≤ f := by
              simp only [serKvs, List.length_append, List.length_cons] at hlen ⊢
              omega
            show parseKvs (f + 1)
                ((('"' :: escChars k.data ++ '"' :: ':' :: serChars v)
                    ++ ',' :: serKvs (kv2 :: rest)) ++ '\x7d' :: l)
              = some ((k, v) :: kv2 :: rest, l)
            simp only [List.cons_append, List.append_assoc]
            simp only [parseKvs, escChars_sound,
              (IH f (Nat.lt_succ_self f)).1 v
                (',' :: (serKvs (kv2 :: rest) ++ '\x7d' :: l)) hlen1
                (restOK_cons (by decide) _),
              (IH f (Nat.lt_succ_self f)).2.2 (kv2 :: rest) l hlen2]
            rfl

theorem jsonParse_jsonStringify (v : JVal) : jsonParse (jsonStringify v) = some v := by
  have h := (parse_ser ((serChars v).length + 1)).1 v [] (Nat.lt_succ_self _) restOK_nil
  rw [List.append_nil] at h
  show (match parseVal ((serChars v).length + 1) (serChars v) with
        | some (v, []) => some v
        | _ => none) = some v
  rw [h]

/-- C7: for every prototype and every plain data object (an object value of
the interchange format), deserializing its serialized text and serializing
the result again yields the very same text, and the reconstructed object
carries exactly the original fields. -/
theorem json_roundtrip_preserves_data (P : Type) (proto : P) (kvs : List (String × JVal)) :
    (fromJSON proto (getJSON (JVal.obj kvs))).map (fun o => o.getJSON)
      = some (getJSON (JVal.obj kvs))
    ∧ (fromJSON proto (getJSON (JVal.obj kvs))).map (fun o => o.fields) = some kvs := by
  unfold fromJSON getJSON JsObject.getJSON
  rw [jsonParse_jsonStringify]
  exact ⟨rfl, rfl⟩

/-- C8: for every prototype object and every text that parses, `fromJSON`
returns a new object whose prototype is exactly the given one and whose own
fields are exactly the key/value pairs obtained by parsing the text. -/
theorem fromJSON_proto_and_fields (P : Type) (proto : P) (text : String) (d : JVal)
    (h : jsonParse text = some d) :
    fromJSON proto text = some { proto := proto, fields := ownFields d } := by
  unfold fromJSON
  rw [h]
  rfl

/-- Witness for C8, at the example of the source's doc comment:
`fromJSON(Circle.prototype, '\x7b"radius":10\x7d')`. -/
theorem fromJSON_proto_and_fields_witness :
    fromJSON () "\x7b\"radius\":10\x7d"
      = some { proto := (), fields := [("radius", JVal.num 10)] } :=
  fromJSON_proto_and_fields Unit () "\x7b\"radius\":10\x7d"
    (JVal.obj [("radius", JVal.num 10)]) (by rfl)
